import Mathlib

/-!
Shallow embedding of the Thread-Manager-Simulator core
(`thread_manager/sync.py` and `thread_manager/manager.py`).

Python machine model used throughout:
* `int` fields are modelled as `ℤ`; wall-clock durations as `ℚ`.
* A `threading.Event` is a Boolean flag: `Event.set()` makes it `true` and
  nothing in this code base ever clears it; `Event.wait(timeout)` returns
  `true` immediately when the flag is set, otherwise the caller blocks until
  the flag is set or, for a timed call, the timeout elapses (returning
  `false` then).
* Lock-protected critical sections are atomic; every concurrent execution is
  a sequence of such atomic sections, so state machines below take one
  atomic section per step.
* Python truthiness in `timeout and (time.time() - start_time) > timeout`:
  the guard is falsy (branch not taken) when `timeout` is `None` or `0`,
  modelled by `timeoutExpired`.
* Polling loops (`while True: ... time.sleep(0.1)`) are driven by an
  explicit environment schedule: one list entry per iteration recording the
  elapsed time at the iteration's timeout check together with what the other
  threads did since the previous iteration.  An exhausted schedule means the
  caller is still blocked in the loop (`none`).
-/

/-- Python truthiness of `timeout and (elapsed > timeout)` from
`ThreadSemaphore._acquire` / `ThreadManager.wait_for_thread`: `None` and `0`
are falsy, so the expiry branch is only reachable for a non-zero timeout. -/
def timeoutExpired (t : Option ℚ) (elapsed : ℚ) : Bool :=
  match t with
  | none => false
  | some tv => if tv = 0 then false else decide (tv < elapsed)

/-! ### ThreadBarrier (`sync.py`, lines 6-41) -/

/-- State of a `ThreadBarrier`: `_parties`, `_count`, and the internal
`threading.Event` flag (`_event`), which `wait` sets but never clears. -/
structure ThreadBarrier where
  parties : ℤ
  count : ℤ
  eventSet : Bool
deriving DecidableEq

/-- `ThreadBarrier.__init__(parties)`. -/
def ThreadBarrier.init (parties : ℤ) : ThreadBarrier :=
  { parties := parties, count := parties, eventSet := false }

/-- Outcome of one `ThreadBarrier.wait` call as seen by the caller. -/
inductive BarrierWaitResult where
  /-- The decrement reached 0: the caller set the event, reset the count and
  returned `True` immediately. -/
  | released
  /-- The caller fell through to `self._event.wait(...)` with the event
  already set: it returns `True` immediately, without blocking. -/
  | returnsTrueImmediately
  /-- The caller fell through to `self._event.wait(...)` with the event
  unset: it blocks until the event is set or the timeout elapses. -/
  | blocksOnEvent
deriving DecidableEq

/-- `ThreadBarrier.wait`: under the lock decrement `_count`; on reaching 0
set the event, reset `_count` to `_parties` and return `True`; otherwise
fall through to `self._event.wait(timeout)`. -/
def ThreadBarrier.wait (s : ThreadBarrier) : ThreadBarrier × BarrierWaitResult :=
  let c := s.count - 1
  if c = 0 then
    ({ s with eventSet := true, count := s.parties }, .released)
  else
    ({ s with count := c },
      if s.eventSet then .returnsTrueImmediately else .blocksOnEvent)

/-! ### ThreadCountDownLatch (`sync.py`, lines 101-136) -/

/-- State of a `ThreadCountDownLatch`: `_count` and the `_event` flag. -/
structure ThreadCountDownLatch where
  count : ℤ
  eventSet : Bool
deriving DecidableEq

/-- `ThreadCountDownLatch.__init__(count)`. -/
def ThreadCountDownLatch.init (count : ℤ) : ThreadCountDownLatch :=
  { count := count, eventSet := false }

/-- `ThreadCountDownLatch.count_down`: under the lock, if `_count > 0`
decrement it and set the event exactly when it reaches 0. -/
def ThreadCountDownLatch.count_down (s : ThreadCountDownLatch) : ThreadCountDownLatch :=
  if s.count > 0 then
    { count := s.count - 1, eventSet := if s.count - 1 = 0 then true else s.eventSet }
  else s

/-- `ThreadCountDownLatch.wait_for_zero(timeout)` returns
`self._event.wait(timeout)`: `true` exactly when the event flag is set
(when unset the caller blocks, and a timed call that runs out returns
`false`).  The returned Boolean is the flag's value, i.e. the signaled
state the caller observes. -/
def ThreadCountDownLatch.wait_for_zero (s : ThreadCountDownLatch) : Bool :=
  s.eventSet

/-! ### ThreadSemaphore (`sync.py`, lines 43-99) -/

/-- State of a `ThreadSemaphore`: `_value` and the (write-only) `_event`
flag set by `release`. -/
structure ThreadSemaphore where
  value : ℤ
  eventSet : Bool
deriving DecidableEq

/-- `ThreadSemaphore.__init__(value)`. -/
def ThreadSemaphore.init (value : ℤ) : ThreadSemaphore :=
  { value := value, eventSet := false }

/-- The lock-protected check-and-decrement section that `_acquire` runs both
before the loop and once per loop iteration: if `_value > 0`, decrement and
succeed; otherwise leave the state unchanged (no decrement at 0). -/
def ThreadSemaphore.tryDecrement (s : ThreadSemaphore) : Option ThreadSemaphore :=
  if s.value > 0 then some { s with value := s.value - 1 } else none

/-- `ThreadSemaphore.release`: under the lock increment `_value` and set the
event. -/
def ThreadSemaphore.release (s : ThreadSemaphore) : ThreadSemaphore :=
  { value := s.value + 1, eventSet := true }

/-- `r` interleaved `release` calls by other threads. -/
def releases (r : ℕ) (s : ThreadSemaphore) : ThreadSemaphore :=
  ThreadSemaphore.release^[r] s

/-- The polling loop of `ThreadSemaphore._acquire`.  Each schedule entry
`(e, r)` is one iteration: `r` releases by other threads happened since the
previous check, and `e` is the elapsed time at this iteration's timeout
check.  The loop checks the timeout first, then retries the lock-protected
decrement; `none` means the schedule ran out with the caller still blocked
in the loop. -/
def acquireLoop (t : Option ℚ) :
    ThreadSemaphore → List (ℚ × ℕ) → Option (Bool × ThreadSemaphore)
  | _, [] => none
  | s, (e, r) :: rest =>
    let s' := releases r s
    if timeoutExpired t e then some (false, s')
    else
      match s'.tryDecrement with
      | some s'' => some (true, s'')
      | none => acquireLoop t s' rest

/-- `ThreadSemaphore._acquire(timeout)`: the fast path first (lock-protected
decrement), then the polling loop driven by the environment schedule. -/
def ThreadSemaphore._acquire (s : ThreadSemaphore) (t : Option ℚ)
    (sched : List (ℚ × ℕ)) : Option (Bool × ThreadSemaphore) :=
  match s.tryDecrement with
  | some s' => some (true, s')
  | none => acquireLoop t s sched

/-- Harness: `k` successive `_acquire` fast-path attempts by one thread;
`true` records an immediate (non-blocking) success, `false` an attempt that
found `_value = 0` and would enter the blocking loop (state unchanged). -/
def fastAcquires : ℕ → ThreadSemaphore → List Bool × ThreadSemaphore
  | 0, s => ([], s)
  | k + 1, s =>
    match s.tryDecrement with
    | some s' => let p := fastAcquires k s'; (true :: p.1, p.2)
    | none => let p := fastAcquires k s; (false :: p.1, p.2)

/-- One atomic lock-protected section of the semaphore, as interleaved by
the scheduler: either some thread's check-and-decrement or a `release`. -/
inductive SemOp where
  | acquireCheck
  | release
deriving DecidableEq

/-- Effect of one atomic semaphore section on the state. -/
def semStep (s : ThreadSemaphore) : SemOp → ThreadSemaphore
  | .acquireCheck =>
    match s.tryDecrement with
    | some s' => s'
    | none => s
  | .release => s.release

/-! ### ThreadManager (`manager.py`) -/

/-- `ThreadState` (`manager.py`, lines 10-15). -/
inductive ThreadState where
  | IDLE
  | RUNNING
  | TERMINATED
  | ERROR
deriving DecidableEq

/-- A submitted callable together with its stored call arguments. Invoking
`task(*args, **kwargs)` either returns a value (`Except.ok`) or raises an
exception (`Except.error`); values are modelled as `ℤ` and exceptions by
their message. -/
def TaskFun : Type := List ℤ → List (String × ℤ) → Except String ℤ

/-- `ThreadInfo` dataclass (`manager.py`, lines 17-26). -/
structure ThreadInfo where
  thread_id : ℕ
  state : ThreadState
  task : TaskFun
  args : List ℤ
  kwargs : List (String × ℤ)
  result : Option ℤ
  error : Option String

/-- State of a `ThreadManager`: the `_threads` registry (dict keyed by the
ids `0, 1, ...` in insertion order, hence a list indexed by id), the
`_running` flag, and the shutdown flag of the underlying
`ThreadPoolExecutor` (whose `submit` raises once it is shut down). -/
structure ThreadManager where
  threads : List ThreadInfo
  running : Bool
  executorShutdown : Bool

/-- `ThreadManager.__init__`. -/
def ThreadManager.init : ThreadManager :=
  { threads := [], running := true, executorShutdown := false }

/-- The `ThreadInfo` that `submit_task` creates and stores. -/
def newInfo (id : ℕ) (t : TaskFun) (a : List ℤ) (k : List (String × ℤ)) : ThreadInfo :=
  { thread_id := id, state := .IDLE, task := t, args := a, kwargs := k,
    result := none, error := none }

/-- `ThreadManager.submit_task`: under the lock allocate
`thread_id = len(self._threads)` and insert a fresh IDLE record; then hand
the task to `self._executor.submit`, which raises
`RuntimeError("cannot schedule new futures after shutdown")` when the
executor has been shut down — after the record was already inserted. -/
def ThreadManager.submit_task (s : ThreadManager) (t : TaskFun) (a : List ℤ)
    (k : List (String × ℤ)) : ThreadManager × Except String ℕ :=
  let id := s.threads.length
  let s' := { s with threads := s.threads ++ [newInfo id t a k] }
  (s', if s.executorShutdown then
    .error "cannot schedule new futures after shutdown"
  else
    .ok id)

/-- `ThreadManager._execute_task` acting on the task's registry record: set
the state to RUNNING, invoke the callable; on an exception record the error
and the ERROR state and re-raise (the raised exception becomes the future's
outcome). -/
def ThreadManager._execute_task (info : ThreadInfo) : ThreadInfo × Except String ℤ :=
  let info' : ThreadInfo := { info with state := .RUNNING }
  match info'.task info'.args info'.kwargs with
  | .ok r => (info', .ok r)
  | .error e => ({ info' with error := some e, state := .ERROR }, .error e)

/-- `ThreadManager._handle_task_completion`: `future.result()` either
returns the task's value (store it, state TERMINATED) or re-raises the
task's exception (store it, state ERROR); `result` is only assigned in the
non-raising case. -/
def ThreadManager._handle_task_completion (info : ThreadInfo)
    (fut : Except String ℤ) : ThreadInfo :=
  match fut with
  | .ok r => { info with result := some r, state := .TERMINATED }
  | .error e => { info with error := some e, state := .ERROR }

/-- One task's full asynchronous life on its registry record:
`_execute_task` followed by the completion callback. -/
def runToCompletion (info : ThreadInfo) : ThreadInfo :=
  let p := ThreadManager._execute_task info
  ThreadManager._handle_task_completion p.1 p.2

/-- In-place update of the record at index `i` (the dict entry
`self._threads[i]` is a shared mutable dataclass instance). -/
def modifyIdx : List ThreadInfo → ℕ → (ThreadInfo → ThreadInfo) → List ThreadInfo
  | [], _, _ => []
  | x :: xs, 0, f => f x :: xs
  | x :: xs, i + 1, f => x :: modifyIdx xs i f

/-- The executor asynchronously running task `id` to completion and firing
its callback: only the record at `id` is touched. -/
def completeTask (s : ThreadManager) (id : ℕ) : ThreadManager :=
  { s with threads := modifyIdx s.threads id runToCompletion }

/-- `ThreadManager.get_thread_info`: `self._threads.get(thread_id)` — a
read-only lookup (`None` when absent, no exception); the registry is
returned unchanged (the method body contains no write). -/
def ThreadManager.get_thread_info (s : ThreadManager) (id : ℕ) :
    Option ThreadInfo × ThreadManager :=
  (s.threads.get? id, s)

/-- The polling loop of `ThreadManager.wait_for_thread`.  Each entry
`(e, st)` is one iteration: `st` is the record's state observed by the
`while` condition and `e` the elapsed time at the iteration's timeout
check.  Leaving the loop (state no longer RUNNING) returns `True`; an
exhausted schedule means the caller is still blocked polling. -/
def waitLoop (t : Option ℚ) : List (ℚ × ThreadState) → Option Bool
  | [] => none
  | (e, st) :: rest =>
    if st = ThreadState.RUNNING then
      if timeoutExpired t e then some false else waitLoop t rest
    else some true

/-- `ThreadManager.wait_for_thread`: raise
`ValueError("Thread ... not found")` when the id is not a registry key,
otherwise poll the record's state; no write to the registry occurs. -/
def ThreadManager.wait_for_thread (s : ThreadManager) (id : ℕ) (t : Option ℚ)
    (obs : List (ℚ × ThreadState)) : Except String (Option Bool) × ThreadManager :=
  if id < s.threads.length then (.ok (waitLoop t obs), s)
  else (.error "Thread not found", s)

/-- `ThreadManager.shutdown(wait)`: set `_running = False` and shut the
executor down (`wait` only controls blocking, not the resulting state). -/
def ThreadManager.shutdown (s : ThreadManager) (w : Bool) : ThreadManager :=
  { s with running := false, executorShutdown := true }

/-- Caller-level operations on one pool, in program order: submissions,
asynchronous task completions, shutdown. -/
inductive MgrOp where
  | submit (t : TaskFun) (a : List ℤ) (k : List (String × ℤ))
  | complete (id : ℕ)
  | shutdown (w : Bool)

/-- Run a list of operations, collecting the ids actually returned by the
`submit_task` calls (a raising call returns nothing). -/
def runOps : ThreadManager → List MgrOp → ThreadManager × List ℕ
  | s, [] => (s, [])
  | s, .submit t a k :: rest =>
    let p := ThreadManager.submit_task s t a k
    let q := runOps p.1 rest
    (q.1, match p.2 with
      | .ok id => id :: q.2
      | .error _ => q.2)
  | s, .complete id :: rest => runOps (completeTask s id) rest
  | s, .shutdown w :: rest => runOps (ThreadManager.shutdown s w) rest

/-- Number of `submit` operations (successful or raising) in a run. -/
def countSubmits : List MgrOp → ℕ
  | [] => 0
  | .submit _ _ _ :: rest => countSubmits rest + 1
  | _ :: rest => countSubmits rest

/-- Whether a run ever calls `shutdown`. -/
def hasShutdown : List MgrOp → Bool
  | [] => false
  | .shutdown _ :: _ => true
  | _ :: rest => hasShutdown rest

/-- The ids `start, start+1, ..., start+cnt-1` in order. -/
def idsFrom : ℕ → ℕ → List ℕ
  | _, 0 => []
  | s, c + 1 => s :: idsFrom (s + 1) c

/-! ### Helper lemmas -/

lemma latch_traj (K j : ℕ) (h : j < K) :
    ThreadCountDownLatch.count_down^[j] (ThreadCountDownLatch.init K) =
      { count := (K : ℤ) - j, eventSet := false } := by
  induction j with
  | zero => simp [ThreadCountDownLatch.init]
  | succ m ih =>
    rw [Function.iterate_succ_apply', ih (by omega)]
    rw [ThreadCountDownLatch.count_down]
    have h1 : ((K : ℤ) - m) > 0 := by
      have : (m : ℤ) + 1 < K := by exact_mod_cast h
      omega
    rw [if_pos h1]
    have h2 : ¬ ((K : ℤ) - m - 1 = 0) := by
      have : (m : ℤ) + 1 < K := by exact_mod_cast h
      omega
    rw [if_neg h2]
    have : (K : ℤ) - m - 1 = (K : ℤ) - (m + 1 : ℕ) := by push_cast; ring
    rw [this]

lemma latch_reaches_zero (K : ℕ) (h : 1 ≤ K) :
    ThreadCountDownLatch.count_down^[K] (ThreadCountDownLatch.init K) =
      { count := 0, eventSet := true } := by
  cases K with
  | zero => omega
  | succ m =>
    rw [Function.iterate_succ_apply', latch_traj (m + 1) m (by omega)]
    rw [ThreadCountDownLatch.count_down]
    have h1 : ((m + 1 : ℕ) : ℤ) - m > 0 := by push_cast; omega
    rw [if_pos h1]
    have h2 : ((m + 1 : ℕ) : ℤ) - m - 1 = 0 := by push_cast; ring
    rw [if_pos h2, h2]

lemma latch_absorbed (j : ℕ) :
    ThreadCountDownLatch.count_down^[j] { count := 0, eventSet := true } =
      ({ count := 0, eventSet := true } : ThreadCountDownLatch) := by
  induction j with
  | zero => rfl
  | succ m ih => rw [Function.iterate_succ_apply', ih]; rfl

lemma tryDecrement_nonpos (s : ThreadSemaphore) (h : s.value ≤ 0) :
    s.tryDecrement = none := by
  rw [ThreadSemaphore.tryDecrement, if_neg (by omega)]

lemma releases_value (r : ℕ) (s : ThreadSemaphore) :
    (releases r s).value = s.value + r := by
  induction r with
  | zero => simp [releases]
  | succ m ih =>
    rw [releases, Function.iterate_succ_apply']
    rw [releases] at ih
    rw [ThreadSemaphore.release]
    push_cast
    omega

lemma releases_zero (s : ThreadSemaphore) : releases 0 s = s := rfl


lemma tryDecrement_succ (m : ℕ) (es : Bool) :
    ThreadSemaphore.tryDecrement { value := ((m + 1 : ℕ) : ℤ), eventSet := es } =
      some { value := (m : ℤ), eventSet := es } := by
  rw [ThreadSemaphore.tryDecrement,
    if_pos (show ((0 : ℤ) < ((m + 1 : ℕ) : ℤ)) by exact_mod_cast Nat.succ_pos m)]
  simp only [Option.some.injEq, ThreadSemaphore.mk.injEq]
  exact ⟨by push_cast; ring, trivial⟩

lemma fastAcquires_all (n : ℕ) (es : Bool) :
    fastAcquires n { value := (n : ℤ), eventSet := es } =
      (List.replicate n true, { value := 0, eventSet := es }) := by
  induction n with
  | zero => rfl
  | succ m ih =>
    simp only [fastAcquires, tryDecrement_succ m es, ih, List.replicate_succ]

lemma fastAcquires_add (j k : ℕ) (s : ThreadSemaphore) :
    fastAcquires (j + k) s =
      ((fastAcquires j s).1 ++ (fastAcquires k (fastAcquires j s).2).1,
       (fastAcquires k (fastAcquires j s).2).2) := by
  induction j generalizing s with
  | zero => simp [fastAcquires]
  | succ m ih =>
    rw [show m + 1 + k = (m + k) + 1 by omega]
    cases htd : s.tryDecrement with
    | some s' => simp only [fastAcquires, htd, ih, List.cons_append]
    | none => simp only [fastAcquires, htd, ih, List.cons_append]

lemma fastAcquires_overshoot (n : ℕ) (es : Bool) :
    fastAcquires (n + 1) { value := (n : ℤ), eventSet := es } =
      (List.replicate n true ++ [false], { value := 0, eventSet := es }) := by
  rw [fastAcquires_add n 1, fastAcquires_all]
  simp [fastAcquires, ThreadSemaphore.tryDecrement]

lemma acquireLoop_success_needs_release (t : Option ℚ) (sched : List (ℚ × ℕ)) :
    ∀ b s', acquireLoop t { value := 0, eventSet := false } sched = some (b, s') →
      b = true → ∃ p ∈ sched, 0 < p.2 := by
  induction sched with
  | nil => intro b s' hb; simp [acquireLoop] at hb
  | cons hd rest ih =>
    intro b s' hb htrue
    obtain ⟨e, r⟩ := hd
    cases r with
    | zero =>
      rw [acquireLoop, releases_zero] at hb
      by_cases hex : timeoutExpired t e = true
      · rw [if_pos hex] at hb
        simp only [Option.some.injEq, Prod.mk.injEq] at hb
        subst htrue
        exact absurd hb.1 (by simp)
      · rw [if_neg hex] at hb
        rw [tryDecrement_nonpos _ (by norm_num)] at hb
        obtain ⟨p, hp, hpos⟩ := ih b s' hb htrue
        exact ⟨p, List.mem_cons_of_mem _ hp, hpos⟩
    | succ m =>
      exact ⟨(e, m + 1), List.mem_cons_self _ _, Nat.succ_pos m⟩

lemma acquireLoop_no_release (t : Option ℚ) (sched : List (ℚ × ℕ))
    (h : ∀ p ∈ sched, p.2 = 0) :
    acquireLoop t { value := 0, eventSet := false } sched =
      if sched.any (fun p => timeoutExpired t p.1) then
        some (false, { value := 0, eventSet := false })
      else none := by
  induction sched with
  | nil => rfl
  | cons hd rest ih =>
    obtain ⟨e, r⟩ := hd
    have hr : r = 0 := h (e, r) (List.mem_cons_self _ _)
    subst hr
    rw [acquireLoop, releases_zero]
    by_cases hex : timeoutExpired t e = true
    · rw [if_pos hex]
      simp [hex]
    · rw [if_neg hex]
      rw [tryDecrement_nonpos _ (by norm_num)]
      rw [ih (fun p hp => h p (List.mem_cons_of_mem _ hp))]
      simp only [List.any_cons, show timeoutExpired t e = false from by simpa using hex,
        Bool.false_or]

lemma modifyIdx_length (l : List ThreadInfo) (i : ℕ) (f : ThreadInfo → ThreadInfo) :
    (modifyIdx l i f).length = l.length := by
  induction l generalizing i with
  | nil => rfl
  | cons x xs ih =>
    cases i with
    | zero => simp [modifyIdx]
    | succ j => simp [modifyIdx, ih]

lemma modifyIdx_get?_ne (l : List ThreadInfo) (i j : ℕ) (f : ThreadInfo → ThreadInfo)
    (h : j ≠ i) : (modifyIdx l i f).get? j = l.get? j := by
  induction l generalizing i j with
  | nil => rfl
  | cons x xs ih =>
    cases i with
    | zero =>
      cases j with
      | zero => omega
      | succ jj => simp [modifyIdx]
    | succ ii =>
      cases j with
      | zero => simp [modifyIdx]
      | succ jj =>
        have h2 := ih ii jj (by omega)
        simpa [modifyIdx] using h2

lemma runOps_length (ops : List MgrOp) :
    ∀ s : ThreadManager,
      (runOps s ops).1.threads.length = s.threads.length + countSubmits ops := by
  induction ops with
  | nil => intro s; simp [runOps, countSubmits]
  | cons op rest ih =>
    intro s
    cases op with
    | submit t a k =>
      rw [runOps]
      rw [show ((runOps (ThreadManager.submit_task s t a k).1 rest).1,
        match (ThreadManager.submit_task s t a k).2 with
          | .ok id => id :: (runOps (ThreadManager.submit_task s t a k).1 rest).2
          | .error _ => (runOps (ThreadManager.submit_task s t a k).1 rest).2).1 =
        (runOps (ThreadManager.submit_task s t a k).1 rest).1 from rfl]
      rw [ih]
      simp [ThreadManager.submit_task, countSubmits]
      omega
    | complete id =>
      rw [runOps, ih]
      simp [completeTask, modifyIdx_length, countSubmits]
    | shutdown w =>
      rw [runOps, ih]
      simp [ThreadManager.shutdown, countSubmits]

lemma runOps_executorShutdown (ops : List MgrOp) (h : hasShutdown ops = false) :
    ∀ s : ThreadManager,
      (runOps s ops).1.executorShutdown = s.executorShutdown := by
  induction ops with
  | nil => intro s; rfl
  | cons op rest ih =>
    intro s
    cases op with
    | submit t a k =>
      have hrest : hasShutdown rest = false := by simpa [hasShutdown] using h
      rw [runOps]
      exact (ih hrest _).trans rfl
    | complete id =>
      have hrest : hasShutdown rest = false := by simpa [hasShutdown] using h
      rw [runOps]
      exact (ih hrest _).trans rfl
    | shutdown w => simp [hasShutdown] at h

lemma runOps_ids (ops : List MgrOp) (h : hasShutdown ops = false) :
    ∀ s : ThreadManager, s.executorShutdown = false →
      (runOps s ops).2 = idsFrom s.threads.length (countSubmits ops) := by
  induction ops with
  | nil => intro s _; rfl
  | cons op rest ih =>
    intro s hex
    cases op with
    | submit t a k =>
      have hrest : hasShutdown rest = false := by simpa [hasShutdown] using h
      rw [runOps]
      have h2 : (ThreadManager.submit_task s t a k).2 = Except.ok s.threads.length := by
        simp [ThreadManager.submit_task, hex]
      have hlen : (ThreadManager.submit_task s t a k).1.threads.length =
          s.threads.length + 1 := by
        simp [ThreadManager.submit_task]
      have hex' : (ThreadManager.submit_task s t a k).1.executorShutdown = false := by
        simpa [ThreadManager.submit_task] using hex
      rw [h2]
      rw [ih hrest _ hex', hlen]
      rfl
    | complete id =>
      have hrest : hasShutdown rest = false := by simpa [hasShutdown] using h
      rw [runOps]
      have hlen : (completeTask s id).threads.length = s.threads.length := by
        simp [completeTask, modifyIdx_length]
      rw [ih hrest _ (by simpa [completeTask] using hex), hlen]
      rfl
    | shutdown w => simp [hasShutdown] at h

lemma runOps_ids_lt (ops : List MgrOp) :
    ∀ (s : ThreadManager) (x : ℕ), x ∈ (runOps s ops).2 →
      x < s.threads.length + countSubmits ops := by
  induction ops with
  | nil => intro s x hx; simp [runOps] at hx
  | cons op rest ih =>
    intro s x hx
    cases op with
    | submit t a k =>
      rw [runOps] at hx
      have hlen : (ThreadManager.submit_task s t a k).1.threads.length =
          s.threads.length + 1 := by
        simp [ThreadManager.submit_task]
      cases h2 : (ThreadManager.submit_task s t a k).2 with
      | ok id =>
        rw [h2] at hx
        have hid : id = s.threads.length := by
          simp [ThreadManager.submit_task] at h2
          by_cases hc : s.executorShutdown <;> simp [hc] at h2 <;> omega
        rcases List.mem_cons.mp hx with hx | hx
        · subst hx; rw [hid]; simp only [countSubmits]; omega
        · have := ih _ _ hx
          rw [hlen] at this
          simp only [countSubmits]; omega
      | error msg =>
        rw [h2] at hx
        have := ih _ _ hx
        rw [hlen] at this
        simp only [countSubmits]; omega
    | complete id =>
      rw [runOps] at hx
      have := ih _ _ hx
      simp [completeTask, modifyIdx_length] at this
      simp only [countSubmits]; omega
    | shutdown w =>
      rw [runOps] at hx
      have := ih _ _ hx
      simp [ThreadManager.shutdown] at this
      simp only [countSubmits]; omega

lemma idsFrom_eq_range' (a n : ℕ) : idsFrom a n = List.range' a n := by
  induction n generalizing a with
  | zero => rfl
  | succ m ih => rw [idsFrom, List.range'_succ, ih]

lemma idsFrom_zero (n : ℕ) : idsFrom 0 n = List.range n := by
  rw [idsFrom_eq_range', List.range_eq_range']

/-! ### Claim theorems -/

/-- C1 (code bug): for a Barrier with parties = 2 the first round behaves as
specified (the first arrival blocks on the event, the second arrival
releases the round), but in the second round the first arrival — not the
P-th arrival of that round, with only 1 of 2 parties arrived
(`count = 1`) — returns `True` immediately instead of blocking, because
`wait` never clears the internal event after a round completes.  This
contradicts the claim and the method's own docstring ("True if all threads
reached the barrier"). -/
theorem barrier_second_round_does_not_block :
    (ThreadBarrier.init 2).wait.2 = BarrierWaitResult.blocksOnEvent ∧
    (ThreadBarrier.init 2).wait.1.wait.2 = BarrierWaitResult.released ∧
    (ThreadBarrier.init 2).wait.1.wait.1.wait =
      ({ parties := 2, count := 1, eventSet := true },
        BarrierWaitResult.returnsTrueImmediately) := by
  decide

/-- C2 counterexample: a Latch constructed with count = K = 0 is not in
signaled state after exactly K = 0 `count_down` calls — its event was never
set, so `wait_for_zero` does not return `true` (an untimed waiter blocks
forever), refuting the claim's "for every K >= 0". -/
theorem latch_zero_never_signals :
    (ThreadCountDownLatch.count_down^[0]
      (ThreadCountDownLatch.init 0)).wait_for_zero = false := by
  decide

/-- C2 (amended): for every K >= 1, a Latch constructed with count = K is
signaled after exactly K `count_down` calls, is not signaled after K-1
calls, and every call beyond the K-th is a no-op leaving the state at
`count = 0`, signaled, raising no error. -/
theorem latch_signals_after_exactly_K (K j : ℕ) (h : 1 ≤ K) :
    (ThreadCountDownLatch.count_down^[K]
      (ThreadCountDownLatch.init K)).wait_for_zero = true ∧
    (ThreadCountDownLatch.count_down^[K - 1]
      (ThreadCountDownLatch.init K)).wait_for_zero = false ∧
    ThreadCountDownLatch.count_down^[K + j] (ThreadCountDownLatch.init K) =
      { count := 0, eventSet := true } := by
  refine ⟨?_, ?_, ?_⟩
  · rw [latch_reaches_zero K h]
    rfl
  · rw [latch_traj K (K - 1) (by omega)]
    rfl
  · rw [Nat.add_comm K j, Function.iterate_add_apply, latch_reaches_zero K h,
      latch_absorbed]

/-- Witness for `latch_signals_after_exactly_K` at K = 3, j = 2. -/
theorem latch_signals_after_exactly_K_w :
    (ThreadCountDownLatch.count_down^[3]
      (ThreadCountDownLatch.init 3)).wait_for_zero = true ∧
    (ThreadCountDownLatch.count_down^[2]
      (ThreadCountDownLatch.init 3)).wait_for_zero = false ∧
    ThreadCountDownLatch.count_down^[5] (ThreadCountDownLatch.init 3) =
      { count := 0, eventSet := true } :=
  latch_signals_after_exactly_K 3 2 (by norm_num)

/-- C7: starting from any construction value V >= 0, every interleaving of
the semaphore's atomic sections keeps `_value` nonnegative: the acquire
check decrements only when `_value > 0`, and `release` only increments. -/
theorem semaphore_value_never_negative (V : ℤ) (ops : List SemOp) (h : 0 ≤ V) :
    0 ≤ (List.foldl semStep (ThreadSemaphore.init V) ops).value ∧
    (∀ s : ThreadSemaphore, s.value ≤ 0 → s.tryDecrement = none) ∧
    (∀ s : ThreadSemaphore, (ThreadSemaphore.release s).value = s.value + 1) := by
  refine ⟨?_, fun s hs => tryDecrement_nonpos s hs, fun s => rfl⟩
  have key : ∀ (l : List SemOp) (s : ThreadSemaphore), 0 ≤ s.value →
      0 ≤ (List.foldl semStep s l).value := by
    intro l
    induction l with
    | nil => intro s hs; simpa using hs
    | cons op rest ih =>
      intro s hs
      rw [List.foldl_cons]
      apply ih
      cases op with
      | acquireCheck =>
        rw [semStep]
        cases htd : s.tryDecrement with
        | none => simpa using hs
        | some s' =>
          rw [ThreadSemaphore.tryDecrement] at htd
          by_cases hv : s.value > 0
          · rw [if_pos hv] at htd
            cases htd
            simp only []
            omega
          · rw [if_neg hv] at htd
            cases htd
      | release =>
        rw [semStep, ThreadSemaphore.release]
        simp only []
        omega
  exact key ops _ h

/-- Witness for `semaphore_value_never_negative` at V = 1 with two acquire
checks (the second finds 0 and does not decrement) and a release. -/
theorem semaphore_value_never_negative_w :
    0 ≤ (List.foldl semStep (ThreadSemaphore.init 1)
      [SemOp.acquireCheck, SemOp.acquireCheck, SemOp.release]).value ∧
    (∀ s : ThreadSemaphore, s.value ≤ 0 → s.tryDecrement = none) ∧
    (∀ s : ThreadSemaphore, (ThreadSemaphore.release s).value = s.value + 1) :=
  semaphore_value_never_negative 1
    [SemOp.acquireCheck, SemOp.acquireCheck, SemOp.release] (by norm_num)

/-- C5: for a Semaphore with value = V, the first V `_acquire` calls all
succeed immediately on the lock-protected fast path (each decrementing
`_value`), ending at `_value = 0`; the (V+1)-th call finds `_value = 0`,
does not succeed immediately, and enters the polling loop, where it can
return `true` only after at least one interleaved `release`, and with no
releases it returns `false` exactly when a truthy timeout has expired at
some poll (otherwise it stays blocked). -/
theorem semaphore_exactly_V_acquires (V : ℕ) (t : Option ℚ) (sched : List (ℚ × ℕ)) :
    fastAcquires V (ThreadSemaphore.init V) =
      (List.replicate V true, { value := 0, eventSet := false }) ∧
    fastAcquires (V + 1) (ThreadSemaphore.init V) =
      (List.replicate V true ++ [false], { value := 0, eventSet := false }) ∧
    (∀ b s', ThreadSemaphore._acquire { value := 0, eventSet := false } t sched =
      some (b, s') → b = true → ∃ p ∈ sched, 0 < p.2) ∧
    ((∀ p ∈ sched, p.2 = 0) →
      ThreadSemaphore._acquire { value := 0, eventSet := false } t sched =
        if sched.any (fun p => timeoutExpired t p.1) then
          some (false, { value := 0, eventSet := false })
        else none) := by
  have hblocked : ThreadSemaphore._acquire { value := 0, eventSet := false } t sched =
      acquireLoop t { value := 0, eventSet := false } sched := by
    rw [ThreadSemaphore._acquire, tryDecrement_nonpos _ (by norm_num)]
  refine ⟨fastAcquires_all V false, fastAcquires_overshoot V false, ?_, ?_⟩
  · intro b s' hb htrue
    rw [hblocked] at hb
    exact acquireLoop_success_needs_release t sched b s' hb htrue
  · intro hno
    rw [hblocked]
    exact acquireLoop_no_release t sched hno

/-- Witness for `semaphore_exactly_V_acquires` at V = 2, timeout 1 and a
release-free schedule whose single poll happens at elapsed time 2. -/
theorem semaphore_exactly_V_acquires_w :
    fastAcquires 3 (ThreadSemaphore.init 2) =
      ([true, true, false], { value := 0, eventSet := false }) ∧
    ThreadSemaphore._acquire { value := 0, eventSet := false } (some 1) [(2, 0)] =
      some (false, { value := 0, eventSet := false }) := by
  have h := semaphore_exactly_V_acquires 2 (some 1) [(2, 0)]
  constructor
  · have h2 := h.2.1
    simpa using h2
  · have h4 := h.2.2.2 (by decide)
    rw [h4]
    norm_num [timeoutExpired]

/-- C10: a caller-supplied timeout of exactly 0 is falsy in the guard
`timeout and elapsed > timeout`, so in both the semaphore acquire loop and
the pool's `wait_for_thread` loop the expiry branch is unreachable: with
timeout 0, neither loop can ever return the timeout result `false`, and
absent a release (resp. while the record stays RUNNING) the caller stays
blocked forever. -/
theorem timeout_zero_blocks_forever (sched : List (ℚ × ℕ))
    (obs : List (ℚ × ThreadState)) :
    (∀ (s : ThreadSemaphore) (b : Bool) (s' : ThreadSemaphore),
      acquireLoop (some 0) s sched = some (b, s') → b = true) ∧
    ((∀ p ∈ sched, p.2 = 0) →
      acquireLoop (some 0) { value := 0, eventSet := false } sched = none) ∧
    (∀ b, waitLoop (some 0) obs = some b → b = true) ∧
    ((∀ p ∈ obs, p.2 = ThreadState.RUNNING) → waitLoop (some 0) obs = none) := by
  have hzero : ∀ e : ℚ, timeoutExpired (some 0) e = false := by
    intro e; simp [timeoutExpired]
  refine ⟨?_, ?_, ?_, ?_⟩
  · intro s b s' hb
    induction sched generalizing s with
    | nil => simp [acquireLoop] at hb
    | cons hd rest ih =>
      obtain ⟨e, r⟩ := hd
      rw [acquireLoop, hzero e, if_neg (by simp)] at hb
      cases htd : (releases r s).tryDecrement with
      | some s'' =>
        rw [htd] at hb
        simp only [Option.some.injEq, Prod.mk.injEq] at hb
        exact hb.1.symm
      | none =>
        rw [htd] at hb
        exact ih _ hb
  · intro hno
    rw [acquireLoop_no_release (some 0) sched hno]
    simp [hzero]
  · intro b hb
    induction obs with
    | nil => simp [waitLoop] at hb
    | cons hd rest ih =>
      obtain ⟨e, st⟩ := hd
      rw [waitLoop] at hb
      by_cases hst : st = ThreadState.RUNNING
      · rw [if_pos hst, hzero e, if_neg (by simp)] at hb
        exact ih hb
      · rw [if_neg hst] at hb
        simp only [Option.some.injEq] at hb
        exact hb.symm
  · intro hrun
    induction obs with
    | nil => rfl
    | cons hd rest ih =>
      obtain ⟨e, st⟩ := hd
      have hst : st = ThreadState.RUNNING := hrun (e, st) (List.mem_cons_self _ _)
      rw [waitLoop, if_pos hst, hzero e, if_neg (by simp)]
      exact ih (fun p hp => hrun p (List.mem_cons_of_mem _ hp))

/-- Witness for `timeout_zero_blocks_forever`: with timeout 0 both loops
stay blocked (result `none`, never `some false`) on a release-free,
RUNNING-only schedule polled at elapsed time 100. -/
theorem timeout_zero_blocks_forever_w :
    acquireLoop (some 0) { value := 0, eventSet := false } [(100, 0)] = none ∧
    waitLoop (some 0) [(100, ThreadState.RUNNING)] = none := by
  have h := timeout_zero_blocks_forever [(100, 0)] [(100, ThreadState.RUNNING)]
  exact ⟨h.2.1 (by decide), h.2.2.2 (by decide)⟩

/-- C4: on a fresh pool, for any sequence of submissions interleaved with
asynchronous task executions/completions (no shutdown), the ids returned by
the N submit calls are exactly 0, 1, ..., N-1 in submission order,
regardless of when the tasks execute or complete. -/
theorem task_ids_are_sequential (ops : List MgrOp) (h : hasShutdown ops = false) :
    (runOps ThreadManager.init ops).2 = List.range (countSubmits ops) := by
  have h1 := runOps_ids ops h ThreadManager.init rfl
  rw [h1]
  rw [show ThreadManager.init.threads.length = 0 from rfl, idsFrom_zero]

/-- Witness for `task_ids_are_sequential`: two submissions with the first
task completing in between return ids [0, 1]. -/
theorem task_ids_are_sequential_w :
    (runOps ThreadManager.init
      [MgrOp.submit (fun _ _ => Except.ok 7) [] [], MgrOp.complete 0,
        MgrOp.submit (fun _ _ => Except.ok 8) [] []]).2 = [0, 1] := by
  have h := task_ids_are_sequential
    [MgrOp.submit (fun _ _ => Except.ok 7) [] [], MgrOp.complete 0,
      MgrOp.submit (fun _ _ => Except.ok 8) [] []] rfl
  exact h.trans rfl

/-- C3 (amended): after `shutdown`, every subsequent `submit_task` call
fails (the executor raises "cannot schedule new futures after shutdown"),
but the failing call has already inserted a fresh Idle record under the
registry lock before the executor rejects it — the task registry grows by
one entry rather than staying unchanged. -/
theorem submit_after_shutdown_fails_but_registers (s : ThreadManager) (w : Bool)
    (t : TaskFun) (a : List ℤ) (k : List (String × ℤ)) :
    (ThreadManager.submit_task (ThreadManager.shutdown s w) t a k).2 =
      Except.error "cannot schedule new futures after shutdown" ∧
    (ThreadManager.submit_task (ThreadManager.shutdown s w) t a k).1.threads =
      s.threads ++ [newInfo s.threads.length t a k] ∧
    (ThreadManager.submit_task (ThreadManager.shutdown s w) t a k).1.threads.length =
      s.threads.length + 1 := by
  refine ⟨?_, ?_, ?_⟩
  · simp [ThreadManager.submit_task, ThreadManager.shutdown]
  · simp [ThreadManager.submit_task, ThreadManager.shutdown]
  · simp [ThreadManager.submit_task, ThreadManager.shutdown]

/-- C3 counterexample: on a fresh pool, `shutdown` then `submit_task`
raises as claimed, but the registry does not stay unchanged: it grows from
0 records to 1 (an Idle record for the rejected submission). -/
theorem submit_after_shutdown_registers_counterexample :
    (ThreadManager.submit_task (ThreadManager.shutdown ThreadManager.init true)
      (fun _ _ => Except.ok 0) [] []).2 =
      Except.error "cannot schedule new futures after shutdown" ∧
    (ThreadManager.shutdown ThreadManager.init true).threads.length = 0 ∧
    (ThreadManager.submit_task (ThreadManager.shutdown ThreadManager.init true)
      (fun _ _ => Except.ok 0) [] []).1.threads.length = 1 :=
  ⟨rfl, rfl, rfl⟩

/-- C6: when a submitted callable raises, the task's record ends with state
ERROR (not RUNNING, so `wait_for_thread` observing it returns `True`), the
captured exception stored in `error` and no `result`; and the completion of
any task touches only its own registry entry, leaving every sibling record
and the pool's flags unchanged. -/
theorem failing_task_recorded (id : ℕ) (t : TaskFun) (a : List ℤ)
    (k : List (String × ℤ)) (e : String) (h : t a k = Except.error e)
    (t0 : Option ℚ) (e0 : ℚ) (s : ThreadManager) (tid : ℕ) :
    runToCompletion (newInfo id t a k) =
      { thread_id := id, state := .ERROR, task := t, args := a, kwargs := k,
        result := none, error := some e } ∧
    (runToCompletion (newInfo id t a k)).state ≠ ThreadState.RUNNING ∧
    waitLoop t0 [(e0, (runToCompletion (newInfo id t a k)).state)] = some true ∧
    (completeTask s tid).running = s.running ∧
    (completeTask s tid).executorShutdown = s.executorShutdown ∧
    (∀ j, j ≠ tid → (completeTask s tid).threads.get? j = s.threads.get? j) := by
  have h1 : runToCompletion (newInfo id t a k) =
      { thread_id := id, state := .ERROR, task := t, args := a, kwargs := k,
        result := none, error := some e } := by
    simp [runToCompletion, ThreadManager._execute_task,
      ThreadManager._handle_task_completion, newInfo, h]
  refine ⟨h1, ?_, ?_, rfl, rfl, ?_⟩
  · rw [h1]; simp
  · rw [h1]; simp [waitLoop]
  · intro j hj
    simp only [completeTask]
    exact modifyIdx_get?_ne s.threads tid j runToCompletion hj

/-- Witness for `failing_task_recorded`: a callable raising "boom" leaves
an ERROR record carrying that error. -/
theorem failing_task_recorded_w :
    (runToCompletion (newInfo 0 (fun _ _ => Except.error "boom") [] [])).state =
      ThreadState.ERROR ∧
    (runToCompletion (newInfo 0 (fun _ _ => Except.error "boom") [] [])).error =
      some "boom" := by
  have h := failing_task_recorded 0 (fun _ _ => Except.error "boom") [] [] "boom" rfl
    none 0 ThreadManager.init 0
  exact ⟨by rw [h.1], by rw [h.1]⟩

/-- C8: once a submitted record leaves RUNNING (it always ends in
TERMINATED or ERROR), exactly one of result/error is populated: TERMINATED
records carry a result and no error, ERROR records carry an error and no
result. -/
theorem record_result_error_exclusive (id : ℕ) (t : TaskFun) (a : List ℤ)
    (k : List (String × ℤ)) :
    ((runToCompletion (newInfo id t a k)).state = ThreadState.TERMINATED ∨
      (runToCompletion (newInfo id t a k)).state = ThreadState.ERROR) ∧
    ((runToCompletion (newInfo id t a k)).state = ThreadState.TERMINATED ↔
      ((runToCompletion (newInfo id t a k)).result.isSome = true ∧
        (runToCompletion (newInfo id t a k)).error = none)) ∧
    ((runToCompletion (newInfo id t a k)).state = ThreadState.ERROR ↔
      ((runToCompletion (newInfo id t a k)).error.isSome = true ∧
        (runToCompletion (newInfo id t a k)).result = none)) := by
  cases h : t a k with
  | ok r =>
    simp [runToCompletion, ThreadManager._execute_task,
      ThreadManager._handle_task_completion, newInfo, h]
  | error e =>
    simp [runToCompletion, ThreadManager._execute_task,
      ThreadManager._handle_task_completion, newInfo, h]

/-- Witness for `record_result_error_exclusive`: a callable returning 5
ends TERMINATED with a stored result and no error. -/
theorem record_result_error_exclusive_w :
    (runToCompletion (newInfo 0 (fun _ _ => Except.ok 5) [] [])).state =
      ThreadState.TERMINATED ∧
    (runToCompletion (newInfo 0 (fun _ _ => Except.ok 5) [] [])).result.isSome = true ∧
    (runToCompletion (newInfo 0 (fun _ _ => Except.ok 5) [] [])).error = none := by
  have h := record_result_error_exclusive 0 (fun _ _ => Except.ok 5) [] []
  have hs : (runToCompletion (newInfo 0 (fun _ _ => Except.ok 5) [] [])).state =
      ThreadState.TERMINATED := rfl
  exact ⟨hs, (h.2.1.mp hs).1, (h.2.1.mp hs).2⟩

/-- C9 (amended): for every id no submit attempt ever created a record for
(id at least the number of submit calls, successful or raising — such an
id in particular was never returned), `get_thread_info` returns None
without raising and `wait_for_thread` raises "Thread not found"; neither
operation changes the manager state.  (The restriction to ids without a
record matters: a post-shutdown submit raises without returning its id yet
still files a record, see `never_returned_id_is_found_counterexample`.) -/
theorem unknown_id_reports_not_found (ops : List MgrOp) (id : ℕ) (t : Option ℚ)
    (obs : List (ℚ × ThreadState)) (h : countSubmits ops ≤ id) :
    id ∉ (runOps ThreadManager.init ops).2 ∧
    ThreadManager.get_thread_info (runOps ThreadManager.init ops).1 id =
      (none, (runOps ThreadManager.init ops).1) ∧
    ThreadManager.wait_for_thread (runOps ThreadManager.init ops).1 id t obs =
      (Except.error "Thread not found", (runOps ThreadManager.init ops).1) := by
  have hlen : (runOps ThreadManager.init ops).1.threads.length = countSubmits ops := by
    have h2 := runOps_length ops ThreadManager.init
    simpa [ThreadManager.init] using h2
  refine ⟨?_, ?_, ?_⟩
  · intro hmem
    have h3 := runOps_ids_lt ops ThreadManager.init id hmem
    simp only [show ThreadManager.init.threads.length = 0 from rfl] at h3
    omega
  · rw [ThreadManager.get_thread_info,
      List.get?_eq_none.mpr (by rw [hlen]; exact h)]
  · rw [ThreadManager.wait_for_thread, if_neg (by rw [hlen]; omega)]

/-- Witness for `unknown_id_reports_not_found`: after a single submission,
id 5 is unknown — `get_thread_info` gives None, `wait_for_thread` raises. -/
theorem unknown_id_reports_not_found_w :
    ThreadManager.get_thread_info
      (runOps ThreadManager.init [MgrOp.submit (fun _ _ => Except.ok 1) [] []]).1 5 =
      (none,
        (runOps ThreadManager.init [MgrOp.submit (fun _ _ => Except.ok 1) [] []]).1) ∧
    ThreadManager.wait_for_thread
      (runOps ThreadManager.init [MgrOp.submit (fun _ _ => Except.ok 1) [] []]).1 5
      none [] =
      (Except.error "Thread not found",
        (runOps ThreadManager.init [MgrOp.submit (fun _ _ => Except.ok 1) [] []]).1) := by
  have h := unknown_id_reports_not_found [MgrOp.submit (fun _ _ => Except.ok 1) [] []]
    5 none [] (by decide)
  exact ⟨h.2.1, h.2.2⟩

/-- C9 counterexample: on a fresh pool run `shutdown` then a `submit_task`
attempt.  The submit raises, so no id is ever returned (the run returns no
ids at all), yet `get_thread_info 0` finds a record — not NotFound —
because the failed submit already filed it.  This refutes the claim for
the never-returned id 0. -/
theorem never_returned_id_is_found_counterexample :
    (runOps ThreadManager.init
      [MgrOp.shutdown true, MgrOp.submit (fun _ _ => Except.ok 0) [] []]).2 = [] ∧
    ((ThreadManager.get_thread_info
      (runOps ThreadManager.init
        [MgrOp.shutdown true, MgrOp.submit (fun _ _ => Except.ok 0) [] []]).1 0).1).isSome =
      true :=
  ⟨rfl, rfl⟩
